/-
  Verification of the BuyingCenter dashboard's data-join-and-derivation
  pipeline (src/app.py, src/app3.py) against its natural-language
  specification.

  Strings are modelled as lists of characters; the Python string methods
  used by the source (strip, upper, lower, replace, split, str()) are
  embedded as structurally recursive Lean functions so that every
  definition evaluates inside the kernel.
-/
import Mathlib

namespace BuyingCenter

/-- Strings of the embedded program, as lists of characters. -/
abbrev Str := List Char

/-- Whitespace characters recognised by Python's str.strip / str.split. -/
def pyIsSpace (c : Char) : Bool :=
  c = ' ' || c = '\t' || c = '\n' || c = '\r' || c = '\x0b' || c = '\x0c'

/-- Python str.strip(): drop leading and trailing whitespace. -/
def pyStrip (s : Str) : Str :=
  ((s.dropWhile pyIsSpace).reverse.dropWhile pyIsSpace).reverse

/-- Python str.upper() (ASCII case mapping, as used by the source's ids). -/
def pyUpper (s : Str) : Str := s.map Char.toUpper

/-- Python str.lower() (ASCII case mapping, as used by the source's names). -/
def pyLower (s : Str) : Str := s.map Char.toLower

/-- Does the first list lead the second one, character by character. -/
def leadsWith : Str → Str → Bool
  | [], _ => true
  | _ :: _, [] => false
  | p :: ps, c :: cs => p == c && leadsWith ps cs

/-- Helper for pyReplace: the Nat counts characters of a just-matched
    pattern occurrence that still have to be skipped. -/
def pyReplaceAux (pat : Str) : Nat → Str → Str
  | _, [] => []
  | Nat.succ k, _ :: rest => pyReplaceAux pat k rest
  | 0, c :: rest =>
    if pat ≠ [] && leadsWith pat (c :: rest) then
      pyReplaceAux pat (pat.length - 1) rest
    else
      c :: pyReplaceAux pat 0 rest

/-- Python s.replace(pat, ""): remove every non-overlapping occurrence of
    pat from s, scanning left to right. -/
def pyReplace (pat s : Str) : Str := pyReplaceAux pat 0 s

/-- Helper for pySplit: acc holds the reversed current word. -/
def pySplitAux : Str → Str → List Str
  | acc, [] => if acc.isEmpty then [] else [acc.reverse]
  | acc, c :: rest =>
    if pyIsSpace c then
      if acc.isEmpty then pySplitAux [] rest else acc.reverse :: pySplitAux [] rest
    else
      pySplitAux (c :: acc) rest

/-- Python str.split() with no argument: split on runs of whitespace,
    producing no empty tokens. -/
def pySplit (s : Str) : List Str := pySplitAux [] s

/-- Python str(x) applied to a possibly-missing pandas cell: a missing
    value is the float nan, whose str() rendering is the text nan. -/
def pyStr : Option Str → Str
  | none => "nan".data
  | some s => s

/-- The literal "H-CIT-" stripped by normalize_id (src/app3.py:198). -/
def hcitPat : Str := "H-CIT-".data

/-- The literal "H-" stripped by normalize_id (src/app3.py:199). -/
def hPat : Str := "H-".data

/-- The literal "CIT-" stripped by normalize_id (src/app3.py:200). -/
def citPat : Str := "CIT-".data

/-- normalize_id (src/app3.py:191-201): null maps to null; otherwise
    str(x).strip().upper() followed by .replace of "H-CIT-", "H-" and
    "CIT-" (each a replace-all of the literal substring), in this order. -/
def normalize_id : Option Str → Option Str
  | none => none
  | some x => some (pyReplace citPat (pyReplace hPat (pyReplace hcitPat (pyUpper (pyStrip x)))))

/-- Spec-phrased removal of every occurrence of a literal substring
    anywhere in the string (one left-to-right pass), written with an
    accumulator so it is a syntactically independent rendering of the
    specification's "literal substring replace anywhere in the string". -/
def stripAnywhereAux (pat : Str) (acc : Str) : Nat → Str → Str
  | _, [] => acc.reverse
  | Nat.succ k, _ :: rest => stripAnywhereAux pat acc k rest
  | 0, c :: rest =>
    if pat ≠ [] && leadsWith pat (c :: rest) then
      stripAnywhereAux pat acc (pat.length - 1) rest
    else
      stripAnywhereAux pat (c :: acc) 0 rest

/-- Spec-phrased strip of a literal substring, applied once, anywhere. -/
def stripAnywhere (pat s : Str) : Str := stripAnywhereAux pat [] 0 s

/-- The normalization algorithm exactly as the specification words it:
    trim, upper-case, then strip "H-CIT-", then "H-", then "CIT-", each
    step applied once, as a literal substring replace anywhere. -/
def normalizeClaim (x : Str) : Str :=
  stripAnywhere citPat (stripAnywhere hPat (stripAnywhere hcitPat (pyUpper (pyStrip x))))

theorem stripAnywhereAux_eq (pat : Str) (s : Str) :
    ∀ (acc : Str) (k : Nat), stripAnywhereAux pat acc k s = acc.reverse ++ pyReplaceAux pat k s := by
  induction s with
  | nil =>
    intro acc k
    cases k <;> simp [stripAnywhereAux, pyReplaceAux]
  | cons c rest ih =>
    intro acc k
    cases k with
    | succ k => simp [stripAnywhereAux, pyReplaceAux, ih]
    | zero =>
      simp only [stripAnywhereAux, pyReplaceAux, ih]
      split <;> simp

theorem stripAnywhere_eq_pyReplace (pat s : Str) : stripAnywhere pat s = pyReplace pat s := by
  simpa [stripAnywhere, pyReplace] using stripAnywhereAux_eq pat s [] 0

/-- Claim C1, counterexample: the identifier normalizer is not idempotent.
    On the input "A H-CIT-" the substring removal exposes a trailing
    space, so normalizing once yields "A " while normalizing twice
    yields "A". -/
theorem C1_counterexample :
    normalize_id (normalize_id (some "A H-CIT-".data)) ≠ normalize_id (some "A H-CIT-".data) ∧
    normalize_id (some "A H-CIT-".data) = some "A ".data ∧
    normalize_id (normalize_id (some "A H-CIT-".data)) = some "A".data := by
  refine ⟨by decide, by decide, by decide⟩

/-- Claim C1, amended: normalize_id is null-preserving, and it is
    idempotent on every input whose normalized form is a fixpoint of the
    cleaning steps: already stripped of edge whitespace, already
    upper-cased, and left unchanged by each of the three substring
    removals. (Unconditional idempotence fails: see the counterexample,
    where a removal exposes trailing whitespace.) -/
theorem C1_amended (x y : Str)
    (hxy : normalize_id (some x) = some y)
    (h1 : pyStrip y = y) (h2 : pyUpper y = y)
    (h3 : pyReplace hcitPat y = y) (h4 : pyReplace hPat y = y) (h5 : pyReplace citPat y = y) :
    normalize_id (normalize_id (some x)) = normalize_id (some x) ∧
    normalize_id none = none := by
  refine ⟨?_, rfl⟩
  rw [hxy]
  show normalize_id (some y) = some y
  simp only [normalize_id, h1, h2, h3, h4, h5]

theorem C1_amended_witness :
    normalize_id (normalize_id (some "H-CIT-1234".data)) = normalize_id (some "H-CIT-1234".data) ∧
    normalize_id none = none :=
  C1_amended "H-CIT-1234".data "1234".data (by decide) (by decide) (by decide)
    (by decide) (by decide) (by decide)

/-- Claim C2: for every non-null input, normalize_id trims, upper-cases,
    then strips the literals "H-CIT-", then "H-", then "CIT-", each step
    applied once in this fixed order as a literal substring replace
    anywhere in the string (normalizeClaim, phrased from the
    specification); and the four quoted examples all yield "1234". -/
theorem C2_normalize_algorithm :
    (∀ x : Str, normalize_id (some x) = some (normalizeClaim x)) ∧
    normalize_id (some "H-CIT-1234".data) = some "1234".data ∧
    normalize_id (some "H-1234".data) = some "1234".data ∧
    normalize_id (some "CIT-1234".data) = some "1234".data ∧
    normalize_id (some "1234".data) = some "1234".data := by
  refine ⟨fun x => ?_, by decide, by decide, by decide, by decide⟩
  simp [normalize_id, normalizeClaim, stripAnywhere_eq_pyReplace]

/-- get_status_color (src/app3.py:241-246), on a contact row's
    sales_affinity_code cell and is_engaged flag: purple when
    str(code).strip() is non-empty (a missing cell renders as the text
    nan under str), else yellow when engaged, else red. -/
def get_status_color (sales_affinity_code : Option Str) (is_engaged : Bool) : Str :=
  if ¬(pyStrip (pyStr sales_affinity_code)).isEmpty then "purple".data
  else if is_engaged then "yellow".data
  else "red".data

/-- The status rule exactly as the claim words it: affinity (purple) only
    when the code is non-null and non-empty after trimming; otherwise
    engaged (yellow) when the flag is set; otherwise unengaged (red). -/
def classifyClaim (sales_affinity_code : Option Str) (is_engaged : Bool) : Str :=
  match sales_affinity_code with
  | some s =>
    if ¬(pyStrip s).isEmpty then "purple".data
    else if is_engaged then "yellow".data else "red".data
  | none => if is_engaged then "yellow".data else "red".data

/-- Claim C3, counterexample: a contact with a null sales-affinity code
    and is_engaged true is classified purple (affinity) by the code,
    because str() renders the missing value as the non-empty text nan;
    the claim requires yellow (engaged) for that contact. -/
theorem C3_counterexample :
    get_status_color none true = "purple".data ∧
    classifyClaim none true = "yellow".data ∧
    get_status_color none true ≠ classifyClaim none true := by
  refine ⟨by decide, by decide, by decide⟩

/-- Claim C3, amended: the fixed precedence affinity > engaged >
    unengaged holds, with the affinity test reading "the str() rendering
    of the code trims to a non-empty string"; since a null code renders
    as the text nan, a null code also classifies as affinity. In
    particular a contact with a non-empty affinity code and
    is_engaged true classifies purple, never yellow. -/
theorem C3_amended :
    (∀ (s : Str) (eng : Bool), ¬(pyStrip s).isEmpty → get_status_color (some s) eng = "purple".data) ∧
    (∀ eng : Bool, get_status_color none eng = "purple".data) ∧
    (∀ (s : Str) (eng : Bool), (pyStrip s).isEmpty →
      get_status_color (some s) eng = if eng then "yellow".data else "red".data) := by
  refine ⟨fun s eng h => ?_, fun eng => by simp [get_status_color, pyStr, pyStrip, pyIsSpace], fun s eng h => ?_⟩
  · simp [get_status_color, pyStr, h]
  · simp [get_status_color, pyStr, h]

theorem C3_amended_witness :
    get_status_color (some "X".data) true = "purple".data ∧
    get_status_color (some "".data) true = (if true then "yellow".data else "red".data) :=
  ⟨C3_amended.1 "X".data true (by decide), C3_amended.2.2 "".data true (by decide)⟩

/-- An activity row of the main dataset, restricted to the name fields
    the engagement derivation reads (src/app3.py:116, 222-227). -/
structure ActivityRow where
  firstName : Option Str
  lastName : Option Str
deriving DecidableEq

/-- Python fillna("") on a cell. -/
def fillna (v : Option Str) : Str := v.getD []

/-- The named rows of the activity data (src/app3.py:116): First Name is
    present and non-blank after stripping. -/
def namedRows (rows : List ActivityRow) : List ActivityRow :=
  rows.filter (fun r => r.firstName.isSome && ¬(pyStrip (fillna r.firstName)).isEmpty)

/-- engaged_pairs (src/app3.py:279-284, identically engaged_names at
    222-227): the (lower-cased stripped first name, lower-cased stripped
    last name) pairs of all named activity rows. -/
def engaged_pairs (rows : List ActivityRow) : List (Str × Str) :=
  (namedRows rows).map
    (fun r => (pyLower (pyStrip (fillna r.firstName)), pyLower (pyStrip (fillna r.lastName))))

/-- check_engaged (src/app3.py:287-294): non-strings map to false; the
    name is stripped and split on whitespace; fewer than two tokens give
    false; otherwise the lower-cased first and last tokens are tested
    for membership in the engaged pairs. -/
def check_engaged (pairs : List (Str × Str)) (name : Option Str) : Bool :=
  match name with
  | none => false
  | some s =>
    let parts := pySplit (pyStrip s)
    if parts.length < 2 then false
    else pairs.contains (pyLower (parts.headD []), pyLower (parts.getLastD []))

/-- has_engaged_match (src/app3.py:229-234): same test applied to the
    str() rendering of the party_unique_name cell. -/
def has_engaged_match (pairs : List (Str × Str)) (party_unique_name : Option Str) : Bool :=
  let parts := pySplit (pyStrip (pyStr party_unique_name))
  if parts.length ≥ 2 then
    pairs.contains (pyLower (parts.headD []), pyLower (parts.getLastD []))
  else false

/-- Claim C4: the engagement test splits the display name on whitespace;
    fewer than two tokens give is_engaged false; otherwise only the
    lower-cased first and last tokens are tested for membership in the
    engaged-pairs set; that set holds exactly the lower-cased, trimmed
    first/last names of the named activity rows; and the two test
    functions of the source agree on every input. -/
theorem C4_engagement_matching (pairs : List (Str × Str)) (s : Str) (rows : List ActivityRow) :
    (check_engaged pairs none = false) ∧
    ((pySplit (pyStrip s)).length < 2 → check_engaged pairs (some s) = false) ∧
    (2 ≤ (pySplit (pyStrip s)).length →
      check_engaged pairs (some s) =
        pairs.contains
          (pyLower ((pySplit (pyStrip s)).headD []), pyLower ((pySplit (pyStrip s)).getLastD []))) ∧
    (∀ p : Str × Str, p ∈ engaged_pairs rows ↔
      ∃ r ∈ rows, r.firstName.isSome ∧ ¬(pyStrip (fillna r.firstName)).isEmpty ∧
        p = (pyLower (pyStrip (fillna r.firstName)), pyLower (pyStrip (fillna r.lastName)))) ∧
    (∀ name : Option Str, has_engaged_match pairs name = check_engaged pairs name) := by
  refine ⟨rfl, fun h => ?_, fun h => ?_, fun p => ?_, fun name => ?_⟩
  · simp [check_engaged, h]
  · simp [check_engaged, Nat.not_lt.mpr h]
  · simp only [engaged_pairs, namedRows, List.mem_map, List.mem_filter]
    constructor
    · rintro ⟨r, ⟨hr, hcond⟩, hp⟩
      simp only [Bool.and_eq_true] at hcond
      exact ⟨r, hr, hcond.1, by simpa using hcond.2, hp.symm⟩
    · rintro ⟨r, hr, h1, h2, hp⟩
      exact ⟨r, ⟨hr, by simp [h1, h2]⟩, hp.symm⟩
  · cases name with
    | none => simp [has_engaged_match, check_engaged, pyStr, pyStrip, pySplit, pySplitAux, pyIsSpace]
    | some s =>
      simp only [has_engaged_match, check_engaged, pyStr]
      by_cases h : 2 ≤ (pySplit (pyStrip s)).length
      · simp [h, Nat.not_lt.mpr h]
      · simp [h, Nat.lt_of_not_le h]

theorem C4_engagement_matching_witness :
    check_engaged [("jane".data, "doe".data)] (some "Jane Q Doe".data) =
      ([("jane".data, "doe".data)]).contains
        (pyLower ((pySplit (pyStrip "Jane Q Doe".data)).headD []),
         pyLower ((pySplit (pyStrip "Jane Q Doe".data)).getLastD [])) ∧
    check_engaged [("jane".data, "doe".data)] (some "Jane".data) = false :=
  ⟨(C4_engagement_matching [("jane".data, "doe".data)] "Jane Q Doe".data []).2.2.1 (by decide),
   (C4_engagement_matching [("jane".data, "doe".data)] "Jane".data []).2.1 (by decide)⟩

/-- A dataframe row: an association list from column names to nullable
    string cells. -/
abbrev Row := List (Str × Option Str)

/-- A dataframe: its column names and its rows. -/
structure Table where
  cols : List Str
  rows : List Row
deriving DecidableEq

/-- Finding a column of a row: some cell when the column exists, none
    when the row has no such column. -/
def cellFind : Row → Str → Option (Option Str)
  | [], _ => none
  | (a, b) :: r, c => if a = c then some b else cellFind r c

/-- Reading a cell of a row: a missing column reads as a missing value. -/
def cell (r : Row) (c : Str) : Option Str := (cellFind r c).getD none

/-- Assigning a column of a row, as pandas does: replace the value when
    the column exists, otherwise append the new column at the end. -/
def setCol (r : Row) (c : Str) (v : Option Str) : Row :=
  if (cellFind r c).isSome then r.map (fun p => (p.1, if p.1 = c then v else p.2))
  else r ++ [(c, v)]

theorem cellFind_map_set (r : Row) (c : Str) (v : Option Str) :
    cellFind (r.map (fun p => (p.1, if p.1 = c then v else p.2))) c =
      if (cellFind r c).isSome then some v else none := by
  induction r with
  | nil => simp [cellFind]
  | cons p r ih =>
    obtain ⟨a, b⟩ := p
    by_cases h : a = c
    · subst h
      simp [cellFind]
    · simp [cellFind, h, ih]

theorem cellFind_map_set_ne (r : Row) (c col : Str) (v : Option Str) (h : col ≠ c) :
    cellFind (r.map (fun p => (p.1, if p.1 = c then v else p.2))) col = cellFind r col := by
  induction r with
  | nil => simp
  | cons p r ih =>
    obtain ⟨a, b⟩ := p
    by_cases hq : a = col
    · subst hq
      simp [cellFind, h]
    · simp [cellFind, hq, ih]

theorem cellFind_append_one (r : Row) (c col : Str) (v : Option Str) :
    cellFind (r ++ [(c, v)]) col =
      match cellFind r col with
      | some w => some w
      | none => if c = col then some v else none := by
  induction r with
  | nil => simp [cellFind]
  | cons p r ih =>
    obtain ⟨a, b⟩ := p
    by_cases hp : a = col
    · simp [cellFind, hp]
    · simp [cellFind, hp, ih]

theorem cell_setCol_self (r : Row) (c : Str) (v : Option Str) :
    cell (setCol r c v) c = v := by
  unfold setCol
  by_cases h : (cellFind r c).isSome
  · simp [cell, h, cellFind_map_set]
  · have hn : cellFind r c = none := by
      cases hl : cellFind r c with
      | none => rfl
      | some w => exact absurd (by simp [hl]) h
    simp [cell, h, cellFind_append_one, hn]

theorem cell_setCol_ne (r : Row) (c col : Str) (v : Option Str) (h : col ≠ c) :
    cell (setCol r c v) col = cell r col := by
  have hcc : ¬ c = col := fun hx => h hx.symm
  unfold setCol
  by_cases hs : (cellFind r c).isSome
  · simp [cell, hs, cellFind_map_set_ne r c col v h]
  · rw [if_neg hs]
    unfold cell
    rw [cellFind_append_one]
    cases cellFind r col with
    | none => simp [hcc]
    | some w => rfl

theorem fst_map_set (r : Row) (c : Str) (v : Option Str) :
    (r.map (fun p => (p.1, if p.1 = c then v else p.2))).map Prod.fst = r.map Prod.fst := by
  induction r with
  | nil => rfl
  | cons p r ih => simp [ih]

theorem names_setCol (r : Row) (c : Str) (v : Option Str) :
    (setCol r c v).map Prod.fst =
      if (cellFind r c).isSome then r.map Prod.fst else r.map Prod.fst ++ [c] := by
  unfold setCol
  by_cases hs : (cellFind r c).isSome
  · simp [hs, fst_map_set]
  · simp [hs]

/-- The derived contact-key column name party_number_clean
    (src/app3.py:203). -/
def cleanCol : Str := "party_number_clean".data

/-- One row of the clean-column assignment (src/app3.py:203): the row
    with party_number_clean set to the normalized contact key. -/
def withClean (key : Str) (r : Row) : Row :=
  setCol r cleanCol (normalize_id (cell r key))

/-- account_contacts (src/app3.py:203-217): every contact row gets the
    derived party_number_clean column, and a row is retained exactly
    when that normalized key is a member of the matching-ids set. -/
def account_contacts (contacts : List Row) (key : Str) (matching : List Str) : List Row :=
  (contacts.map (withClean key)).filter (fun r =>
    match cell r cleanCol with
    | some v => matching.contains v
    | none => false)

/-- Claim C5: account_contacts is a pure semi-join filter: its output
    holds exactly the contact rows whose normalized key is a member of
    the supplied account-key set; the only column added beyond the
    originals is the derived party_number_clean, whose value is the
    normalized key; every other cell is unchanged. -/
theorem C5_semi_join (contacts : List Row) (key : Str) (matching : List Str) :
    (∀ r : Row, r ∈ account_contacts contacts key matching ↔
      ∃ c ∈ contacts, r = withClean key c ∧
        ∃ v, normalize_id (cell c key) = some v ∧ v ∈ matching) ∧
    (∀ c : Row, (withClean key c).map Prod.fst =
      if (cellFind c cleanCol).isSome then c.map Prod.fst else c.map Prod.fst ++ [cleanCol]) ∧
    (∀ (c : Row) (col : Str), col ≠ cleanCol → cell (withClean key c) col = cell c col) ∧
    (∀ c : Row, cell (withClean key c) cleanCol = normalize_id (cell c key)) := by
  refine ⟨fun r => ?_, fun c => names_setCol c cleanCol _,
    fun c col h => cell_setCol_ne c cleanCol col _ h, fun c => cell_setCol_self c cleanCol _⟩
  simp only [account_contacts, List.mem_filter, List.mem_map]
  constructor
  · rintro ⟨⟨c, hc, rfl⟩, hkeep⟩
    rw [withClean, cell_setCol_self] at hkeep
    cases hv : normalize_id (cell c key) with
    | none => rw [hv] at hkeep; exact absurd hkeep (by simp)
    | some v =>
      rw [hv] at hkeep
      refine ⟨c, hc, rfl, v, hv, ?_⟩
      simpa [List.contains, List.elem_iff] using hkeep
  · rintro ⟨c, hc, rfl, v, hv, hvm⟩
    refine ⟨⟨c, hc, rfl⟩, ?_⟩
    rw [withClean, cell_setCol_self, hv]
    simpa [List.contains, List.elem_iff] using hvm

theorem C5_semi_join_witness :
    cell (withClean "party_number".data [("party_number".data, some "H-CIT-7".data)])
      ("party_number".data) = some "H-CIT-7".data ∧
    cell (withClean "party_number".data [("party_number".data, some "H-CIT-7".data)])
      cleanCol = normalize_id (some "H-CIT-7".data) :=
  ⟨(C5_semi_join [] "party_number".data []).2.2.1
      [("party_number".data, some "H-CIT-7".data)] "party_number".data (by decide),
   (C5_semi_join [] "party_number".data []).2.2.2
      [("party_number".data, some "H-CIT-7".data)]⟩

/-- The account-identifier join key CustomerId_NAR (src/app.py:72). -/
def narCol : Str := "CustomerId_NAR".data

/-- The suffix pandas appends to colliding firmographic-origin columns
    (src/app.py:73, suffixes ("", "_DB")). -/
def dbSuffix : Str := "_DB".data

/-- The firmographic rows whose key cell equals the given key value
    (pandas merge key matching; missing keys match missing keys). -/
def matchRows (b : List Row) (k : Option Str) : List Row :=
  b.filter (fun rb => cell rb narCol == k)

/-- The output name of a firmographic-origin column: suffixed with _DB
    exactly when it collides with an activity column. -/
def suffixedName (acols : List Str) (c : Str) : Str :=
  if acols.contains c then c ++ dbSuffix else c

/-- A merged output row for one matching firmographic row: the activity
    row followed by the firmographic cells, minus the shared key column,
    with colliding names suffixed. -/
def joinedRow (acols : List Str) (a rb : Row) : Row :=
  a ++ (rb.filter (fun p => ¬ p.1 = narCol)).map (fun p => (suffixedName acols p.1, p.2))

/-- A merged output row for an unmatched activity row: every
    firmographic-origin column is filled with null. -/
def nullRow (acols bcols : List Str) (a : Row) : Row :=
  a ++ ((bcols.filter (fun c => ¬ c = narCol)).map (fun c => (suffixedName acols c, (none : Option Str))))

/-- merged (src/app.py:72-73): the left outer join of the activity table
    with the firmographic table on CustomerId_NAR, with suffixes
    ("", "_DB") on colliding columns. -/
def merged (A B : Table) : List Row :=
  A.rows.flatMap (fun a =>
    let ms := matchRows B.rows (cell a narCol)
    if ms.isEmpty then [nullRow A.cols B.cols a] else ms.map (joinedRow A.cols a))

theorem merged_block_length (A B : Table) (a : Row) :
    (if (matchRows B.rows (cell a narCol)).isEmpty then [nullRow A.cols B.cols a]
      else (matchRows B.rows (cell a narCol)).map (joinedRow A.cols a)).length =
      max 1 (matchRows B.rows (cell a narCol)).length := by
  by_cases h : (matchRows B.rows (cell a narCol)).isEmpty
  · rw [List.isEmpty_iff] at h
    simp [h]
  · have h1 : 1 ≤ (matchRows B.rows (cell a narCol)).length := by
      cases hm : matchRows B.rows (cell a narCol) with
      | nil => exact absurd (by simp [hm]) h
      | cons x l => simp
    rw [if_neg h, List.length_map]
    omega

/-- Claim C6: the activity-firmographic merge is a left outer join: the
    output row count is the sum over activity rows of max(1, number of
    matching firmographic rows); every activity row is preserved as a
    prefix of some output row; an unmatched activity row appears padded
    with all-null firmographic columns; and every matching firmographic
    row yields its own output row (cross-multiplication, no dedup). -/
theorem C6_left_join (A B : Table) (_hA : narCol ∈ A.cols) (_hB : narCol ∈ B.cols) :
    (merged A B).length =
      (A.rows.map (fun a => max 1 (matchRows B.rows (cell a narCol)).length)).sum ∧
    (∀ a ∈ A.rows, ∃ ext : Row, a ++ ext ∈ merged A B) ∧
    (∀ a ∈ A.rows, matchRows B.rows (cell a narCol) = [] →
      nullRow A.cols B.cols a ∈ merged A B) ∧
    (∀ a ∈ A.rows, ∀ rb ∈ matchRows B.rows (cell a narCol),
      joinedRow A.cols a rb ∈ merged A B) := by
  refine ⟨?_, fun a ha => ?_, fun a ha hm => ?_, fun a ha rb hrb => ?_⟩
  · rw [merged, List.length_flatMap]
    congr 1
    apply List.map_congr_left
    intro a _
    exact merged_block_length A B a
  · cases hm : matchRows B.rows (cell a narCol) with
    | nil =>
      refine ⟨(B.cols.filter (fun c => ¬ c = narCol)).map (fun c => (suffixedName A.cols c, (none : Option Str))), ?_⟩
      rw [merged, List.mem_flatMap]
      exact ⟨a, ha, by simp [hm, nullRow]⟩
    | cons rb l =>
      refine ⟨(rb.filter (fun p => ¬ p.1 = narCol)).map (fun p => (suffixedName A.cols p.1, p.2)), ?_⟩
      rw [merged, List.mem_flatMap]
      refine ⟨a, ha, ?_⟩
      simp only [hm]
      exact List.mem_map_of_mem _ (by simp)
  · rw [merged, List.mem_flatMap]
    exact ⟨a, ha, by simp [hm]⟩
  · rw [merged, List.mem_flatMap]
    refine ⟨a, ha, ?_⟩
    have hne : ¬ (matchRows B.rows (cell a narCol)).isEmpty := by
      cases hm : matchRows B.rows (cell a narCol) with
      | nil => rw [hm] at hrb; cases hrb
      | cons x l => simp
    simp only [hne, if_false]
    exact List.mem_map_of_mem _ hrb

theorem C6_left_join_witness :
    (merged ⟨[narCol], [[(narCol, some "K1".data)], [(narCol, some "K2".data)]]⟩
        ⟨[narCol, "Technographics".data],
         [[(narCol, some "K1".data), ("Technographics".data, some "T".data)],
          [(narCol, some "K1".data), ("Technographics".data, some "U".data)]]⟩).length =
      ((⟨[narCol], [[(narCol, some "K1".data)], [(narCol, some "K2".data)]]⟩ : Table).rows.map
        (fun a => max 1 (matchRows (⟨[narCol, "Technographics".data],
         [[(narCol, some "K1".data), ("Technographics".data, some "T".data)],
          [(narCol, some "K1".data), ("Technographics".data, some "U".data)]]⟩ : Table).rows
            (cell a narCol)).length)).sum :=
  (C6_left_join ⟨[narCol], [[(narCol, some "K1".data)], [(narCol, some "K2".data)]]⟩
    ⟨[narCol, "Technographics".data],
     [[(narCol, some "K1".data), ("Technographics".data, some "T".data)],
      [(narCol, some "K1".data), ("Technographics".data, some "U".data)]]⟩
    (by decide) (by decide)).1

/-- The candidate date column names, in priority order
    (src/app.py:26, src/app3.py:106). -/
def dateCandidates : List Str :=
  ["Activity Date".data, "Activity_DateOnly".data, "Date".data]

/-- The date-column resolution loop (src/app.py:25-29, src/app3.py:106-109):
    the first candidate name present in the table's column set, none when
    no candidate is present. -/
def resolveDateColumn (cols : List Str) : Option Str :=
  dateCandidates.find? (fun c => cols.contains c)

/-- load_data (src/app.py:21-38), with the external pd.to_datetime
    (errors coerce, utc) supplied as a total parse function into an
    abstract instant type, so an unparsable value becomes none and never
    raises: when no candidate date column is present the function reports
    the error and stops; otherwise it returns the table together with
    the parsed date column. -/
def load_data {D : Type} (parse : Option Str → Option D) (t : Table) :
    Except Unit (Table × List (Option D)) :=
  match resolveDateColumn t.cols with
  | none => Except.error ()
  | some c => Except.ok (t, t.rows.map (fun r => parse (cell r c)))

/-- The date-normalization step of app3 (src/app3.py:106-109): when a
    candidate column is present, the derived date column is the parsed
    values of the first present candidate; otherwise nothing is derived
    (and in particular no non-candidate column is silently chosen). -/
def dateStepApp3 {D : Type} (parse : Option Str → Option D) (t : Table) :
    Option (List (Option D)) :=
  (resolveDateColumn t.cols).map (fun c => t.rows.map (fun r => parse (cell r c)))

/-- Claim C7: resolveDateColumn returns the first candidate present in
    priority order Activity Date, Activity_DateOnly, Date, and returns
    none exactly when no candidate is present; load_data reports absence
    of every candidate as an error (never a silent default), and when a
    candidate is present it succeeds for every table, the date column
    being the parse of each value with failures already null by the
    parse function's totality; app3's inline step derives nothing when
    no candidate is present. -/
theorem C7_date_resolver {D : Type} (parse : Option Str → Option D) (t : Table) (cols : List Str) :
    ("Activity Date".data ∈ cols → resolveDateColumn cols = some "Activity Date".data) ∧
    ("Activity Date".data ∉ cols → "Activity_DateOnly".data ∈ cols →
      resolveDateColumn cols = some "Activity_DateOnly".data) ∧
    ("Activity Date".data ∉ cols → "Activity_DateOnly".data ∉ cols → "Date".data ∈ cols →
      resolveDateColumn cols = some "Date".data) ∧
    (resolveDateColumn cols = none ↔ ∀ c ∈ dateCandidates, c ∉ cols) ∧
    (∀ c, resolveDateColumn t.cols = some c →
      load_data parse t = Except.ok (t, t.rows.map (fun r => parse (cell r c)))) ∧
    (resolveDateColumn t.cols = none → load_data parse t = Except.error ()) ∧
    (resolveDateColumn t.cols = none → dateStepApp3 parse t = none) := by
  refine ⟨fun h1 => ?_, fun h1 h2 => ?_, fun h1 h2 h3 => ?_, ?_, fun c hc => ?_, fun hc => ?_, fun hc => ?_⟩
  · simp [resolveDateColumn, dateCandidates, List.find?, List.contains, List.elem_iff, h1]
  · simp [resolveDateColumn, dateCandidates, List.find?, List.contains, List.elem_iff, h1, h2]
  · simp [resolveDateColumn, dateCandidates, List.find?, List.contains, List.elem_iff, h1, h2, h3]
  · constructor
    · intro h c hcand hmem
      rcases List.find?_eq_none.mp h c hcand with hfalse
      exact absurd hmem (by simpa [List.contains, List.elem_iff] using hfalse)
    · intro h
      apply List.find?_eq_none.mpr
      intro c hcand
      simpa [List.contains, List.elem_iff] using h c hcand
  · simp [load_data, hc]
  · simp [load_data, hc]
  · simp [dateStepApp3, hc]

theorem C7_date_resolver_witness :
    resolveDateColumn ["X".data, "Activity_DateOnly".data, "Date".data] =
      some "Activity_DateOnly".data ∧
    load_data (fun (_ : Option Str) => (none : Option Unit))
      ⟨["Account Name".data], [[("Account Name".data, some "Acme".data)]]⟩ = Except.error () :=
  ⟨(C7_date_resolver (fun (_ : Option Str) => (none : Option Unit))
      ⟨[], []⟩ ["X".data, "Activity_DateOnly".data, "Date".data]).2.1
      (by decide) (by decide),
   (C7_date_resolver (fun (_ : Option Str) => (none : Option Unit))
      ⟨["Account Name".data], [[("Account Name".data, some "Acme".data)]]⟩ []).2.2.2.2.2.1
      (by decide)⟩

/-- The encodings relevant to the loader. -/
inductive Enc
  | utf8
  | latin1
  | iso8859_1
deriving DecidableEq

/-- A failure of one pd.read_csv attempt: a Unicode decoding fault or
    any other exception. -/
inductive FetchErr
  | unicodeDecodeError
  | otherError
deriving DecidableEq

/-- How a failed load surfaces: the handled error path (st.error followed
    by st.stop) or an exception propagating out of the fallback attempt. -/
inductive LoadFail
  | loadError
  | propagated (e : FetchErr)
deriving DecidableEq

/-- load_csv_from_github (src/app3.py:26-33), over an abstract source
    that yields, per attempted encoding, either a parsed table or a
    failure: try latin1; on a UnicodeDecodeError retry with ISO-8859-1
    (a failure there is uncaught and propagates); on any other exception
    report and stop. In every failure case no table is returned. -/
def load_csv_from_github (fetch : Enc → Except FetchErr Table) : Except LoadFail Table :=
  match fetch Enc.latin1 with
  | Except.ok t => Except.ok t
  | Except.error FetchErr.unicodeDecodeError =>
    match fetch Enc.iso8859_1 with
    | Except.ok t => Except.ok t
    | Except.error e => Except.error (LoadFail.propagated e)
  | Except.error FetchErr.otherError => Except.error LoadFail.loadError

/-- The loading order exactly as the claim words it: attempt UTF-8 first,
    then Latin-1 as fallback, failing with LoadError when both attempts
    fail. -/
def loadClaim (fetch : Enc → Except FetchErr Table) : Except LoadFail Table :=
  match fetch Enc.utf8 with
  | Except.ok t => Except.ok t
  | Except.error _ =>
    match fetch Enc.latin1 with
    | Except.ok t => Except.ok t
    | Except.error _ => Except.error LoadFail.loadError

/-- A source whose bytes parse to different tables under UTF-8 and
    Latin-1 (as real non-ASCII bytes do). -/
def fetchDiffers : Enc → Except FetchErr Table
  | Enc.utf8 => Except.ok ⟨[], []⟩
  | Enc.latin1 => Except.ok ⟨["A".data], []⟩
  | Enc.iso8859_1 => Except.ok ⟨["A".data], []⟩

/-- Claim C8, counterexample: the loader does not attempt UTF-8 first:
    on a source that parses differently under UTF-8 and Latin-1 the code
    returns the Latin-1 parse while the claimed order would return the
    UTF-8 parse. -/
theorem C8_counterexample :
    load_csv_from_github fetchDiffers = Except.ok ⟨["A".data], []⟩ ∧
    loadClaim fetchDiffers = Except.ok ⟨[], []⟩ ∧
    load_csv_from_github fetchDiffers ≠ loadClaim fetchDiffers := by
  refine ⟨rfl, rfl, fun h => ?_⟩
  have h2 : (⟨["A".data], []⟩ : Table) = ⟨[], []⟩ := Except.ok.inj h
  simp at h2

/-- Claim C8, amended: the loader attempts latin1 first and, only on a
    Unicode decoding fault, ISO-8859-1 second; UTF-8 is never attempted
    (the result is independent of the source's UTF-8 behaviour); it
    succeeds exactly when the latin1 attempt succeeds or the
    ISO-8859-1 fallback succeeds after a decode fault; any other
    first-attempt failure halts with LoadError and a fallback failure
    propagates, so no partial table is ever returned on failure. -/
theorem C8_amended (f g : Enc → Except FetchErr Table)
    (hl : f Enc.latin1 = g Enc.latin1) (hi : f Enc.iso8859_1 = g Enc.iso8859_1) :
    load_csv_from_github f = load_csv_from_github g ∧
    (∀ t : Table, load_csv_from_github f = Except.ok t ↔
      (f Enc.latin1 = Except.ok t ∨
        (f Enc.latin1 = Except.error FetchErr.unicodeDecodeError ∧
         f Enc.iso8859_1 = Except.ok t))) ∧
    (f Enc.latin1 = Except.error FetchErr.otherError →
      load_csv_from_github f = Except.error LoadFail.loadError) ∧
    (∀ e : FetchErr, f Enc.latin1 = Except.error FetchErr.unicodeDecodeError →
      f Enc.iso8859_1 = Except.error e →
      load_csv_from_github f = Except.error (LoadFail.propagated e)) := by
  refine ⟨?_, fun t => ?_, fun h1 => ?_, fun e h1 h2 => ?_⟩
  · unfold load_csv_from_github
    rw [hl, hi]
  · unfold load_csv_from_github
    cases h1 : f Enc.latin1 with
    | ok t₁ => simp [h1]
    | error e₁ =>
      cases e₁ with
      | unicodeDecodeError =>
        cases h2 : f Enc.iso8859_1 with
        | ok t₂ => simp [h2]
        | error e₂ => simp [h2]
      | otherError => simp
  · unfold load_csv_from_github
    rw [h1]
  · unfold load_csv_from_github
    rw [h1, h2]

theorem C8_amended_witness :
    load_csv_from_github
      (fun e => if e = Enc.latin1 then Except.error FetchErr.unicodeDecodeError
        else Except.ok (⟨[], []⟩ : Table)) = Except.ok (⟨[], []⟩ : Table) :=
  ((C8_amended
      (fun e => if e = Enc.latin1 then Except.error FetchErr.unicodeDecodeError
        else Except.ok (⟨[], []⟩ : Table))
      (fun e => if e = Enc.latin1 then Except.error FetchErr.unicodeDecodeError
        else Except.ok (⟨[], []⟩ : Table)) rfl rfl).2.1 ⟨[], []⟩).mpr
    (Or.inr ⟨rfl, rfl⟩)

/-- The accepted contact-key column aliases, in priority order
    (src/app3.py:184). -/
def possible_keys : List Str :=
  ["party_number".data, "Party_Number".data, "party_id".data, "Party_ID".data]

/-- contact_key (src/app3.py:185): the first accepted alias present in
    the contacts table's column set, none when no alias is present. -/
def contact_key (cols : List Str) : Option Str :=
  possible_keys.find? (fun k => cols.contains k)

/-- The contacts semi-join failure mode (src/app3.py:187-189). -/
inductive JoinErr
  | noJoinKey
deriving DecidableEq

/-- The contacts portion of the app3 script (src/app3.py:184-217): when
    no alias is present, report the missing join key and stop (only the
    contacts derivation is produced by this step); otherwise produce the
    semi-joined contacts. -/
def contactsStep (contacts : Table) (matching : List Str) : Except JoinErr (List Row) :=
  match contact_key contacts.cols with
  | none => Except.error JoinErr.noJoinKey
  | some k => Except.ok (account_contacts contacts.rows k matching)

/-- The activity rows of the selected account (src/app3.py:100). -/
def accountData (df : Table) (account : Str) : List Row :=
  df.rows.filter (fun r => cell r "Account Name".data == some account)

/-- The firmographics panel data (src/app3.py:157): firmographic rows
    whose CustomerId_NAR occurs among the selected account's activity
    rows. -/
def firmographicsOf (db : Table) (acct : List Row) : List Row :=
  db.rows.filter (fun rb => (acct.map (fun r => cell r narCol)).contains (cell rb narCol))

/-- The app3 page fragment relevant here, in source order: the
    firmographics panel is computed (src/app3.py:151-179) before the
    contacts join is attempted (src/app3.py:184-217), so a missing
    contact key stops only the contacts portion. -/
def app3Page (df db contacts : Table) (account : Str) (matching : List Str) :
    List Row × Except JoinErr (List Row) :=
  (firmographicsOf db (accountData df account), contactsStep contacts matching)

/-- Claim C9: the contact key is the first present alias in the fixed
    order party_number, Party_Number, party_id, Party_ID; when no alias
    is present the contacts step fails with the missing-join-key error;
    and that failure leaves the upstream activity and firmographic
    results untouched: the firmographics component of the page is the
    same whatever the contacts table and matching set are. -/
theorem C9_contact_key (cols : List Str) (contacts : Table) (matching : List Str)
    (df db : Table) (account : Str) (contacts2 : Table) (matching2 : List Str) :
    ("party_number".data ∈ cols → contact_key cols = some "party_number".data) ∧
    ("party_number".data ∉ cols → "Party_Number".data ∈ cols →
      contact_key cols = some "Party_Number".data) ∧
    ("party_number".data ∉ cols → "Party_Number".data ∉ cols → "party_id".data ∈ cols →
      contact_key cols = some "party_id".data) ∧
    ("party_number".data ∉ cols → "Party_Number".data ∉ cols → "party_id".data ∉ cols →
      "Party_ID".data ∈ cols → contact_key cols = some "Party_ID".data) ∧
    (contact_key cols = none ↔ ∀ k ∈ possible_keys, k ∉ cols) ∧
    (contact_key contacts.cols = none →
      contactsStep contacts matching = Except.error JoinErr.noJoinKey) ∧
    ((app3Page df db contacts account matching).1 =
      (app3Page df db contacts2 account matching2).1) := by
  refine ⟨fun h1 => ?_, fun h1 h2 => ?_, fun h1 h2 h3 => ?_, fun h1 h2 h3 h4 => ?_,
    ?_, fun hc => ?_, rfl⟩
  · simp [contact_key, possible_keys, List.find?, List.contains, List.elem_iff, h1]
  · simp [contact_key, possible_keys, List.find?, List.contains, List.elem_iff, h1, h2]
  · simp [contact_key, possible_keys, List.find?, List.contains, List.elem_iff, h1, h2, h3]
  · simp [contact_key, possible_keys, List.find?, List.contains, List.elem_iff, h1, h2, h3, h4]
  · constructor
    · intro h k hcand hmem
      have hfalse := List.find?_eq_none.mp h k hcand
      exact absurd hmem (by simpa [List.contains, List.elem_iff] using hfalse)
    · intro h
      apply List.find?_eq_none.mpr
      intro k hcand
      simpa [List.contains, List.elem_iff] using h k hcand
  · simp [contactsStep, hc]

theorem C9_contact_key_witness :
    contact_key ["job_title".data, "Party_ID".data] = some "Party_ID".data ∧
    contactsStep ⟨["job_title".data], []⟩ [] = Except.error JoinErr.noJoinKey :=
  ⟨(C9_contact_key ["job_title".data, "Party_ID".data] ⟨[], []⟩ [] ⟨[], []⟩ ⟨[], []⟩
      [] ⟨[], []⟩ []).2.2.2.1 (by decide) (by decide) (by decide) (by decide),
   (C9_contact_key [] ⟨["job_title".data], []⟩ [] ⟨[], []⟩ ⟨[], []⟩
      [] ⟨[], []⟩ []).2.2.2.2.2.1 (by decide)⟩

/-- The derived clean activity-key column name (src/app3.py:204). -/
def narCleanCol : Str := "CustomerId_NAR_clean".data

/-- The in-place column assignment df[dst] = df[src].apply(normalize_id)
    (src/app3.py:203-204), on the table level. -/
def addCleanColumn (t : Table) (src dst : Str) : Table :=
  ⟨if t.cols.contains dst then t.cols else t.cols ++ [dst],
   t.rows.map (fun r => setCol r dst (normalize_id (cell r src)))⟩

/-- The loaded tables of one app3 session (src/app3.py:41-43). -/
structure Session where
  df : Table
  db_df : Table
  contacts_df : Table
deriving DecidableEq

/-- The derivation step of src/app3.py:203-204 as a state transform of
    the session: both assignments write into the loaded dataframes. -/
def deriveCleanColumns (s : Session) (key : Str) : Session :=
  { s with
    contacts_df := addCleanColumn s.contacts_df key cleanCol,
    df := addCleanColumn s.df narCol narCleanCol }

/-- Claim C10, counterexample: the derivation does mutate loaded tables
    from the caller's perspective: on a one-row session the loaded
    contacts table (and the loaded activity table) differ after the
    clean-key derivation, each having gained a derived column. -/
theorem C10_counterexample :
    (deriveCleanColumns
      ⟨⟨[narCol], [[(narCol, some "1".data)]]⟩, ⟨[], []⟩,
       ⟨["party_number".data], [[("party_number".data, some "H-1".data)]]⟩⟩
      "party_number".data).contacts_df ≠
      (⟨["party_number".data], [[("party_number".data, some "H-1".data)]]⟩ : Table) ∧
    (deriveCleanColumns
      ⟨⟨[narCol], [[(narCol, some "1".data)]]⟩, ⟨[], []⟩,
       ⟨["party_number".data], [[("party_number".data, some "H-1".data)]]⟩⟩
      "party_number".data).df ≠ (⟨[narCol], [[(narCol, some "1".data)]]⟩ : Table) := by
  refine ⟨by decide, by decide⟩

/-- Claim C10, amended: the clean-key derivation of src/app3.py:203-204
    mutates the loaded activity and contacts tables in place, but only
    by adding the single derived key column to each
    (CustomerId_NAR_clean, party_number_clean): every other cell of
    every row keeps its value, the row counts are unchanged, and the
    loaded firmographic table is never touched; the later status and
    is_engaged columns are assigned to copies, modelled here by
    account_contacts being a pure function of the session. -/
theorem C10_amended (s : Session) (key : Str) :
    (deriveCleanColumns s key).db_df = s.db_df ∧
    (deriveCleanColumns s key).df.rows.length = s.df.rows.length ∧
    (deriveCleanColumns s key).contacts_df.rows.length = s.contacts_df.rows.length ∧
    (∀ (r : Row) (dst : Str) (v : Option Str) (col : Str), col ≠ dst →
      cell (setCol r dst v) col = cell r col) ∧
    (deriveCleanColumns s key).df.rows =
      s.df.rows.map (fun r => setCol r narCleanCol (normalize_id (cell r narCol))) ∧
    (deriveCleanColumns s key).contacts_df.rows =
      s.contacts_df.rows.map (fun r => setCol r cleanCol (normalize_id (cell r key))) ∧
    (deriveCleanColumns s key).df.cols =
      (if s.df.cols.contains narCleanCol then s.df.cols else s.df.cols ++ [narCleanCol]) ∧
    (deriveCleanColumns s key).contacts_df.cols =
      (if s.contacts_df.cols.contains cleanCol then s.contacts_df.cols
        else s.contacts_df.cols ++ [cleanCol]) := by
  refine ⟨rfl, by simp [deriveCleanColumns, addCleanColumn], by simp [deriveCleanColumns, addCleanColumn],
    fun r dst v col h => cell_setCol_ne r dst col v h, rfl, rfl, rfl, rfl⟩

theorem C10_amended_witness :
    (deriveCleanColumns
      ⟨⟨[narCol], [[(narCol, some "1".data)]]⟩, ⟨[], []⟩,
       ⟨["party_number".data], [[("party_number".data, some "H-1".data)]]⟩⟩
      "party_number".data).db_df = (⟨[], []⟩ : Table) ∧
    cell (setCol [("party_number".data, some "H-1".data)] cleanCol (some "1".data))
      "party_number".data = some "H-1".data :=
  ⟨(C10_amended
      ⟨⟨[narCol], [[(narCol, some "1".data)]]⟩, ⟨[], []⟩,
       ⟨["party_number".data], [[("party_number".data, some "H-1".data)]]⟩⟩
      "party_number".data).1,
   (C10_amended
      ⟨⟨[narCol], [[(narCol, some "1".data)]]⟩, ⟨[], []⟩,
       ⟨["party_number".data], [[("party_number".data, some "H-1".data)]]⟩⟩
      "party_number".data).2.2.2.1
     [("party_number".data, some "H-1".data)] cleanCol (some "1".data)
     "party_number".data (by decide)⟩

end BuyingCenter
